import Mathlib

/-!
# Verification of the pixels-server image transformation gateway

Shallow embedding of the core of the `pixels-server` repository
(parameter validation, deterministic cache-key naming, the read-through
cache orchestration of `CtrlImage.getImage` / `processImage`, the
`convertImage` operation pipeline, and the batch runner
`CtrlBatch._processFiles`), together with theorems settling the spec
claims about these components.

Conventions of the embedding:
* JavaScript records (`Record<string, string>` etc.) are modelled as
  association lists `List (String × _)` in enumeration order, since JS
  object iteration order is insertion order for string keys.
* Thrown `ErrorObject`s are modelled with `Except ErrorObject`.
* Machine `number`s are modelled as `ℚ`; the partial model `jsNumber`
  of the JavaScript `Number()` conversion covers the plain decimal
  grammar (signs, digits, one decimal point, the empty string).
* External capabilities (the storage backend, the sharp pixel engine)
  are oracle functions collected in an `Env` structure; storage
  interactions are additionally recorded in an event trace.
-/

namespace PixelsServer

/-- `ErrorObject` from `utils/errorObject.ts`: an HTTP status plus the
error payload (modelled as a string). -/
structure ErrorObject where
  status : Nat
  error : String
  deriving DecidableEq, Repr

/-- A JavaScript runtime value as stored in the validated parameter
record: numbers, booleans, strings, or `undefined`. -/
inductive JsValue where
  | num (q : ℚ)
  | bool (b : Bool)
  | str (s : String)
  | undefined
  deriving DecidableEq, Repr

/-- JavaScript truthiness of a `JsValue`. -/
def truthy : JsValue → Bool
  | .num q => q ≠ 0
  | .bool b => b
  | .str s => s ≠ ""
  | .undefined => false

/-- Numeric value of the digit list `l` (most significant first). -/
def digitsVal (l : List Char) : Nat :=
  l.foldl (fun a c => a * 10 + (c.toNat - 48)) 0

/-- Parse the body of a decimal literal: `digits [. digits]?` with at
least one digit overall. -/
def jsNumberAux (l : List Char) : Option ℚ :=
  let ip := l.takeWhile (·.isDigit)
  let rest := l.dropWhile (·.isDigit)
  match rest with
  | [] => if ip = [] then none else some (digitsVal ip)
  | '.' :: fp =>
      if fp.all (·.isDigit) ∧ (ip ≠ [] ∨ fp ≠ []) then
        some ((digitsVal ip : ℚ) + (digitsVal fp : ℚ) / (10 ^ fp.length))
      else none
  | _ => none

/-- Model of the JavaScript `Number(string)` conversion, restricted to
the decimal grammar `[+-]? digits [. digits]?`; the empty string
converts to 0 as in JS. Strings outside this grammar (hex literals,
whitespace, `Infinity`, …) are modelled as NaN (`none`). -/
def jsNumber (s : String) : Option ℚ :=
  match s.toList with
  | [] => some 0
  | '-' :: rest => (jsNumberAux rest).map (fun q => -q)
  | '+' :: rest => jsNumberAux rest
  | l => jsNumberAux l

/-- ASCII lowercase conversion of one character, as JS `toLowerCase`
acts on the ASCII inputs this code handles. -/
def charToLower (c : Char) : Char :=
  if 'A' ≤ c ∧ c ≤ 'Z' then Char.ofNat (c.toNat + 32) else c

/-- Model of JS `String.toLowerCase` (ASCII). -/
def jsToLower (s : String) : String := ⟨s.data.map charToLower⟩

/-- First-match lookup in an association list of strings. -/
def lookupStr (m : List (String × String)) (k : String) : Option String :=
  (m.find? (fun kv => kv.1 == k)).map (fun kv => kv.2)

/-- `formatMap` from `utils/extras.ts`: supported image extensions and
their sharp format names. -/
def formatMap : List (String × String) :=
  [("jpg", "jpg"), ("jpeg", "jpeg"), ("png", "png"), ("webp", "webp"),
   ("gif", "gif"), ("tiff", "tiff"), ("avif", "avif"), ("heif", "heif"),
   ("jp2", "jp2"), ("jxl", "jxl"), ("raw", "raw")]

/-- `imageConversionParams` from `utils/extras.ts`: the query-parameter
keys recognised for naming, with their short codes. -/
def imageConversionParams : List (String × String) :=
  [("height", "h"), ("width", "w"), ("quality", "q"), ("format", "f"),
   ("blur", "b"), ("greyscale", "g"), ("rotate", "r"), ("flip", "flip"),
   ("flop", "flop"), ("tint", "t"), ("negate", "n")]

/-- Hexadecimal digit test (`0-9a-fA-F`). -/
def isHexDigitChar (c : Char) : Bool :=
  c.isDigit ∨ ('a' ≤ c ∧ c ≤ 'f') ∨ ('A' ≤ c ∧ c ≤ 'F')

/-- `parseInt(s, 16)` as used by `hexToRgb`: value of the longest hex
digit prefix, NaN (`none`) when there is none. JavaScript `parseInt`
never throws. -/
def parseIntHex (s : String) : Option Nat :=
  let ds := s.toList.takeWhile isHexDigitChar
  if ds = [] then none
  else some (ds.foldl (fun a c =>
    a * 16 + (if c.isDigit then c.toNat - 48
              else if c.toNat ≥ 97 then c.toNat - 87 else c.toNat - 55)) 0)

/-- `hexToRgb` from `utils/functions.ts`. It slices the cleaned string
and applies `parseInt(_, 16)` to each slice; since `parseInt` returns
NaN instead of throwing, this function is total and never fails, even
on non-hex input such as "zzzzzz". -/
def hexToRgb (hex : String) : Option Nat × Option Nat × Option Nat :=
  let cleanHex := (hex.toList.filter (· ≠ '#'))
  (parseIntHex ⟨cleanHex.take 2⟩,
   parseIntHex ⟨(cleanHex.drop 2).take 2⟩,
   parseIntHex ⟨(cleanHex.drop 4).take 2⟩)

/-- `validateImageExtension` from `utils/functions.ts`: `none` input or
the empty string yield `null` (`Option.none`); otherwise the lowercased
extension is looked up in `formatMap`, throwing a 400 error when
unsupported. -/
def validateImageExtension (extension : Option String) :
    Except ErrorObject (Option String) :=
  match extension with
  | none => .ok none
  | some e =>
    if e = "" then .ok none
    else
      match lookupStr formatMap (jsToLower e) with
      | some outputFormat => .ok (some outputFormat)
      | none => .error ⟨400, "Unsupported image extension: " ++ e⟩

/-- JS object assignment `obj[k] = v` on an association list: overwrite
when the key is present, append otherwise. -/
def setParam (ps : List (String × JsValue)) (k : String) (v : JsValue) :
    List (String × JsValue) :=
  if ps.any (fun kv => kv.1 == k) then
    ps.map (fun kv => if kv.1 == k then (k, v) else kv)
  else ps ++ [(k, v)]

/-- Keys accepted by `validateQueryParams` (`Object.keys(imageConversionParams)`). -/
def validKeys : List String := imageConversionParams.map (fun kv => kv.1)

/-- One iteration of the `validateQueryParams` loop from
`utils/functions.ts` (the switch over a single key/value pair).
The `tint` case mirrors the source's `try { hexToRgb(value); ... }`:
`hexToRgb` is total, so the catch branch is unreachable and the raw
value is always stored. The `negate` key is in `validKeys` but has no
switch case, so it falls to the `default` throw. -/
def validateQueryParamsStep (acc : List (String × JsValue))
    (kv : String × String) : Except ErrorObject (List (String × JsValue)) :=
  let key := kv.1
  let value := kv.2
  if ¬ (validKeys.contains key) then
    .error ⟨400, "Unsupported query parameter: " ++ key⟩
  else if key = "width" ∨ key = "height" ∨ key = "quality" ∨
          key = "blur" ∨ key = "rotate" then
    match jsNumber value with
    | none => .error ⟨400, "Invalid number for " ++ key ++ ": " ++ value⟩
    | some numValue =>
      if key = "quality" ∧ (numValue < 0 ∨ numValue > 100) then
        .error ⟨400, "Quality must be between 0 and 100: " ++ value⟩
      else if (key = "width" ∨ key = "height" ∨ key = "blur" ∨ key = "rotate")
              ∧ numValue < 0 then
        .error ⟨400, key ++ " must be a non-negative number: " ++ value⟩
      else .ok (setParam acc key (.num numValue))
  else if key = "greyscale" ∨ key = "flip" ∨ key = "flop" then
    let boolValue := jsToLower value
    if boolValue = "true" ∨ boolValue = "1" then
      .ok (setParam acc key (.bool true))
    else if boolValue = "false" ∨ boolValue = "0" then
      .ok (setParam acc key (.bool false))
    else .error ⟨400, "Invalid boolean for " ++ key ++ ": " ++ value⟩
  else if key = "format" then
    match validateImageExtension (some value) with
    | .error e => .error e
    | .ok (some fmt) => .ok (setParam acc "format" (.str fmt))
    | .ok none => .ok (setParam acc "format" .undefined)
  else if key = "tint" then
    let _rgb := hexToRgb value
    .ok (setParam acc "tint" (.str value))
  else .error ⟨400, "Unhandled query parameter type for: " ++ key⟩

/-- `validateQueryParams` from `utils/functions.ts`: validate each raw
query parameter in enumeration order, building the validated record;
the first offending parameter raises a 400 `ErrorObject`. -/
def validateQueryParams (queryParams : List (String × String)) :
    Except ErrorObject (List (String × JsValue)) :=
  queryParams.foldlM validateQueryParamsStep []

/-- Lexicographic comparison of character lists by code point; this is
the comparison JS `Array.sort`'s default comparator performs on these
tokens (UTF-16 code units and code points agree on ASCII). -/
def charListLeB : List Char → List Char → Bool
  | [], _ => true
  | _ :: _, [] => false
  | a :: as, b :: bs =>
    if a < b then true
    else if b < a then false
    else charListLeB as bs

/-- The token order used when sorting cache-key name tokens. -/
def tokenLe (a b : String) : Prop := charListLeB a.data b.data = true

instance : DecidableRel tokenLe := fun a b =>
  inferInstanceAs (Decidable (charListLeB a.data b.data = true))

/-- The name tokens accumulated by the loop in `createNameFromParams`:
every parameter key other than `format` that has a short code in
`imageConversionParams` contributes a token `code ++ "-" ++ value`. -/
def nameTokens (queryParams : List (String × String)) : List String :=
  queryParams.filterMap (fun kv =>
    if kv.1 ≠ "format" then
      match lookupStr imageConversionParams kv.1 with
      | some keyName => some (keyName ++ "-" ++ kv.2)
      | none => none
    else none)

/-- `createNameFromParams` from `utils/functions.ts`: the name tokens
are sorted (JS `Array.sort` default string order) and joined with `-`;
with no tokens the result is the bare `imageName.imageExtension`. -/
def createNameFromParams (imageName : String) (imageExtension : String)
    (queryParams : List (String × String)) : String :=
  if (nameTokens queryParams).length > 0 then
    imageName ++ "-" ++
      String.intercalate "-"
        (List.insertionSort tokenLe (nameTokens queryParams)) ++
      "." ++ imageExtension
  else
    imageName ++ "." ++ imageExtension

/-! ## Properties of the token order -/

theorem charListLeB_total : ∀ l₁ l₂ : List Char,
    charListLeB l₁ l₂ = true ∨ charListLeB l₂ l₁ = true
  | [], _ => Or.inl rfl
  | _ :: _, [] => Or.inr rfl
  | a :: as, b :: bs => by
    rcases lt_trichotomy a b with h | h | h
    · left; simp [charListLeB, h]
    · subst h
      simpa [charListLeB, lt_irrefl] using charListLeB_total as bs
    · right; simp [charListLeB, h]

theorem charListLeB_trans : ∀ l₁ l₂ l₃ : List Char,
    charListLeB l₁ l₂ = true → charListLeB l₂ l₃ = true →
    charListLeB l₁ l₃ = true
  | [], _, _, _, _ => rfl
  | _ :: _, [], _, h₁, _ => by simp [charListLeB] at h₁
  | _ :: _, _ :: _, [], _, h₂ => by simp [charListLeB] at h₂
  | a :: as, b :: bs, c :: cs, h₁, h₂ => by
    simp only [charListLeB] at h₁ h₂ ⊢
    rcases lt_trichotomy a b with hab | hab | hab
    · rcases lt_trichotomy b c with hbc | hbc | hbc
      · simp [lt_trans hab hbc]
      · subst hbc; simp [hab]
      · simp [lt_asymm hbc, hbc] at h₂
    · subst hab
      rcases lt_trichotomy a c with hac | hac | hac
      · simp [hac]
      · subst hac
        simp only [lt_irrefl, if_neg (lt_irrefl a), if_false] at h₁ h₂ ⊢
        exact charListLeB_trans as bs cs h₁ h₂
      · simp [lt_asymm hac, hac] at h₂
    · simp [lt_asymm hab, hab] at h₁

theorem charListLeB_antisymm : ∀ l₁ l₂ : List Char,
    charListLeB l₁ l₂ = true → charListLeB l₂ l₁ = true → l₁ = l₂
  | [], [], _, _ => rfl
  | [], _ :: _, _, h₂ => by simp [charListLeB] at h₂
  | _ :: _, [], h₁, _ => by simp [charListLeB] at h₁
  | a :: as, b :: bs, h₁, h₂ => by
    simp only [charListLeB] at h₁ h₂
    rcases lt_trichotomy a b with hab | hab | hab
    · simp [lt_asymm hab, hab] at h₂
    · subst hab
      simp only [lt_irrefl, if_neg (lt_irrefl a), if_false] at h₁ h₂
      rw [charListLeB_antisymm as bs h₁ h₂]
    · simp [lt_asymm hab, hab] at h₁

instance : IsTotal String tokenLe :=
  ⟨fun a b => charListLeB_total a.data b.data⟩

instance : IsTrans String tokenLe :=
  ⟨fun a b c => charListLeB_trans a.data b.data c.data⟩

instance : IsAntisymm String tokenLe :=
  ⟨fun a b h₁ h₂ => by
    cases a; cases b
    exact congrArg String.mk (charListLeB_antisymm _ _ h₁ h₂)⟩

/-! ## Claim C1: determinism of the cache-key name -/

/-- C1: `createNameFromParams` is a pure deterministic function of the
set of key-value pairs: any two enumeration orders of the same
parameter pairs produce the identical string, because the tokens are
sorted before joining. -/
theorem C1_createNameFromParams_deterministic (n e : String)
    (l₁ l₂ : List (String × String)) (h : l₁.Perm l₂) :
    createNameFromParams n e l₁ = createNameFromParams n e l₂ := by
  have hp : (nameTokens l₁).Perm (nameTokens l₂) := h.filterMap _
  have hsort : List.insertionSort tokenLe (nameTokens l₁) =
      List.insertionSort tokenLe (nameTokens l₂) :=
    List.eq_of_perm_of_sorted
      ((List.perm_insertionSort tokenLe _).trans
        (hp.trans (List.perm_insertionSort tokenLe _).symm))
      (List.sorted_insertionSort tokenLe _)
      (List.sorted_insertionSort tokenLe _)
  unfold createNameFromParams
  rw [hp.length_eq, hsort]

/-- Witness for C1 at a concrete permutation pair. -/
theorem C1_witness :
    ([("width", "600"), ("height", "800")] :
        List (String × String)).Perm [("height", "800"), ("width", "600")] ∧
    createNameFromParams "p1" "webp" [("width", "600"), ("height", "800")] =
      createNameFromParams "p1" "webp" [("height", "800"), ("width", "600")] :=
  ⟨by decide,
   C1_createNameFromParams_deterministic "p1" "webp" _ _ (by decide)⟩

/-! ## Claim C2: the naming algorithm -/

/-- The short-code mapping the spec states for `deriveName`. -/
def specShortCodes : List (String × String) :=
  [("width", "w"), ("height", "h"), ("quality", "q"), ("blur", "b"),
   ("rotate", "r"), ("greyscale", "g"), ("flip", "flip"), ("flop", "flop"),
   ("tint", "t")]

/-- The keys enumerated by the spec's naming algorithm (the nine coded
transformation keys plus the excluded `format`). -/
def specNameKeys : List String :=
  ["width", "height", "quality", "blur", "rotate", "greyscale", "flip",
   "flop", "tint", "format"]

/-- The tokens of the spec's `deriveName` algorithm: for every
parameter key except `format`, map the key to its short code and build
`code-value`. -/
def specNameTokens (params : List (String × String)) : List String :=
  params.filterMap (fun kv =>
    if kv.1 = "format" then none
    else (lookupStr specShortCodes kv.1).map (fun code => code ++ "-" ++ kv.2))

/-- `deriveName` as the spec words it: build the tokens, sort them
lexicographically, join with `-`; with no tokens the result is
`baseName.extension`. -/
def deriveNameSpec (baseName extension : String)
    (params : List (String × String)) : String :=
  if (specNameTokens params).length > 0 then
    baseName ++ "-" ++
      String.intercalate "-"
        (List.insertionSort tokenLe (specNameTokens params)) ++
      "." ++ extension
  else
    baseName ++ "." ++ extension

/-- C2: on parameter records drawn from the keys the claim enumerates,
`createNameFromParams` implements exactly the stated algorithm
(`deriveNameSpec`); in particular the claim's concrete example and the
empty-parameter shape hold. -/
theorem C2_createNameFromParams_algorithm (n e : String)
    (ps : List (String × String))
    (h : ∀ kv ∈ ps, kv.1 ∈ specNameKeys) :
    createNameFromParams n e ps = deriveNameSpec n e ps ∧
    createNameFromParams "p1" "webp" [("width", "600"), ("height", "800")] =
      "p1-h-800-w-600.webp" ∧
    createNameFromParams n e [] = n ++ "." ++ e := by
  refine ⟨?_, rfl, rfl⟩
  have ht : nameTokens ps = specNameTokens ps := by
    unfold nameTokens specNameTokens
    apply List.filterMap_congr
    intro kv hkv
    have hk := h kv hkv
    simp only [specNameKeys, List.mem_cons, List.not_mem_nil, or_false] at hk
    rcases hk with hk | hk | hk | hk | hk | hk | hk | hk | hk | hk <;>
      rw [hk] <;> rfl
  unfold createNameFromParams deriveNameSpec
  rw [ht]

/-- Witness for C2 at the claim's example input. -/
theorem C2_witness :
    (∀ kv ∈ ([("width", "600"), ("height", "800")] :
        List (String × String)), kv.1 ∈ specNameKeys) ∧
    createNameFromParams "p1" "webp" [("width", "600"), ("height", "800")] =
      deriveNameSpec "p1" "webp" [("width", "600"), ("height", "800")] :=
  ⟨by decide,
   (C2_createNameFromParams_algorithm "p1" "webp" _ (by decide)).1⟩

/-! ## Claim C3: the validation boundary -/

/-- C3 (evaluation of the code at the claim's boundary inputs): the
quality/width/format boundaries behave exactly as claimed, but
`tint=zzzzzz` is ACCEPTED: `hexToRgb` never throws (JS `parseInt`
returns NaN instead of throwing), so the `try/catch` in the `tint`
case of `validateQueryParams` can never reject a malformed color, and
the raw value is stored. This contradicts the claim (and the dead
catch branch shows the code's own intent). -/
theorem C3_validateQueryParams_boundary :
    validateQueryParams [("tint", "zzzzzz")] =
      .ok [("tint", JsValue.str "zzzzzz")] ∧
    validateQueryParams [("quality", "101")] =
      .error ⟨400, "Quality must be between 0 and 100: 101"⟩ ∧
    validateQueryParams [("quality", "-1")] =
      .error ⟨400, "Quality must be between 0 and 100: -1"⟩ ∧
    validateQueryParams [("width", "-5")] =
      .error ⟨400, "width must be a non-negative number: -5"⟩ ∧
    validateQueryParams [("format", "docx")] =
      .error ⟨400, "Unsupported image extension: docx"⟩ ∧
    validateQueryParams [("quality", "0")] = .ok [("quality", JsValue.num 0)] ∧
    validateQueryParams [("quality", "100")] =
      .ok [("quality", JsValue.num 100)] ∧
    validateQueryParams [("width", "0")] = .ok [("width", JsValue.num 0)] :=
  ⟨rfl, rfl, rfl, rfl, rfl, rfl, rfl, rfl⟩

/-! ## The read-through cache orchestration (`CtrlImage`) -/

/-- Decidable equality for `Except`. -/
def exceptDecEq {ε α : Type} [DecidableEq ε] [DecidableEq α] :
    DecidableEq (Except ε α)
  | .error e₁, .error e₂ =>
    if h : e₁ = e₂ then .isTrue (by rw [h])
    else .isFalse (fun hc => by injection hc; contradiction)
  | .error _, .ok _ => .isFalse (fun hc => by injection hc)
  | .ok _, .error _ => .isFalse (fun hc => by injection hc)
  | .ok a₁, .ok a₂ =>
    if h : a₁ = a₂ then .isTrue (by rw [h])
    else .isFalse (fun hc => by injection hc; contradiction)

instance {ε α : Type} [DecidableEq ε] [DecidableEq α] :
    DecidableEq (Except ε α) := exceptDecEq

/-- A storage interaction performed against the backend, in the order
executed: reads carry the key and the `fromConvertPath` flag, writes
carry the key and the (swallowed) outcome of the upload. -/
inductive StorageEvent where
  | read (key : String) (fromConvertPath : Bool)
  | write (key : String) (outcome : Except ErrorObject Unit)
  deriving DecidableEq, Repr

/-- The external capabilities used by the orchestrator: the resolved
storage backend (`S3Manager`-style `readFile`/`uploadFile`, where
absence surfaces as a status-404 `ErrorObject`) and the sharp pixel
engine invoked by `CtrlImage.convertImage` (bytes in, bytes out, may
fail). Image bytes are opaque (`List Nat`). -/
structure Env where
  readFile : String → Bool → Except ErrorObject (List Nat)
  uploadFile : String → List Nat → Except ErrorObject Unit
  convert : List Nat → List (String × JsValue) → String →
    Except ErrorObject (List Nat)

/-- `TypeImageResponse`: the bytes returned plus their extension. -/
structure ImageResponse where
  image : List Nat
  extension : String
  deriving DecidableEq, Repr

/-- JS `String.split` with a single-character separator, on character
lists (both separators used by the code, `"."` and `"/"`, are single
characters). -/
def splitChar (sep : Char) : List Char → List (List Char)
  | [] => [[]]
  | c :: cs =>
    match splitChar sep cs with
    | h :: t => if c = sep then [] :: h :: t else (c :: h) :: t
    | [] => [[]]

/-- `imagePath.split(".").pop() || ""` — the extension `getImage`
extracts (the whole path when it contains no dot). -/
def extOf (path : String) : String :=
  ⟨(splitChar '.' path.data).getLastD []⟩

/-- `imagePath.split("/").pop()?.split(".")[0] || ""` — the base name
`getImage` extracts. -/
def nameOf (path : String) : String :=
  ⟨(splitChar '.' ((splitChar '/' path.data).getLastD [])).headD []⟩

/-- JS `a || b` where `a` is a nullable string: `null` and `""` are
falsy. -/
def jsOrStr (a : Option String) (b : String) : String :=
  match a with
  | none => b
  | some s => if s = "" then b else s

/-- JS `String.replace` with a string pattern replaces only the first
occurrence. -/
def replaceFirstList (pat rep : List Char) : List Char → List Char
  | [] => []
  | c :: cs =>
    if pat.isPrefixOf (c :: cs) then rep ++ (c :: cs).drop pat.length
    else c :: replaceFirstList pat rep cs

/-- `originalPath.replace(originalName, parsedName)` as used when
storing the converted image. -/
def jsReplaceFirst (s pat rep : String) : String :=
  ⟨replaceFirstList pat.data rep.data s.data⟩

/-- `CtrlImage.processImage` from `ctrlImage.ts`: read the original at
`originalPath` (from the originals area, `fromConvertPath = false`),
convert it, then store the converted bytes under the parsed name —
that write is wrapped in `Silent`, so its outcome is recorded in the
trace but discarded — and return the converted bytes with the new
extension. -/
def processImage (env : Env) (originalPath originalName parsedName : String)
    (operations : List (String × JsValue)) (newExtension : String) :
    Except ErrorObject ImageResponse × List StorageEvent :=
  match env.readFile originalPath false with
  | .error e => (.error e, [.read originalPath false])
  | .ok image =>
    match env.convert image operations newExtension with
    | .error e => (.error e, [.read originalPath false])
    | .ok converted =>
      let writeKey := jsReplaceFirst originalPath originalName parsedName
      (.ok ⟨converted, newExtension⟩,
       [.read originalPath false,
        .write writeKey (env.uploadFile writeKey converted)])

/-- `CtrlImage.getImage` from `ctrlImage.ts`: extract extension and
base name, validate the query parameters, reject empty transform
specs, resolve the output extension, derive the cache-key name, then
attempt the cached read; a 404 from that read falls into
`processImage`, any other error is rethrown. -/
def getImage (env : Env) (imagePath : String)
    (queryParams : List (String × String)) :
    Except ErrorObject ImageResponse × List StorageEvent :=
  let ext := extOf imagePath
  let name := nameOf imagePath
  let originalName := name ++ "." ++ ext
  if ext = "" then (.error ⟨400, "File extension is missing"⟩, [])
  else
    match validateQueryParams queryParams with
    | .error e => (.error e, [])
    | .ok validatedParams =>
      if validatedParams.length = 0 then
        (.error ⟨400, "Query params required for conversion"⟩, [])
      else
        match validateImageExtension (lookupStr queryParams "format") with
        | .error e => (.error e, [])
        | .ok newExtension =>
          match validateImageExtension (some ext) with
          | .error e => (.error e, [])
          | .ok originalExtension =>
            let finalExt := jsOrStr newExtension (originalExtension.getD "")
            let parsedName := createNameFromParams name finalExt queryParams
            match env.readFile parsedName true with
            | .ok image => (.ok ⟨image, finalExt⟩, [.read parsedName true])
            | .error err =>
              if err.status = 404 then
                let next := processImage env imagePath originalName parsedName
                  validatedParams finalExt
                (next.1, .read parsedName true :: next.2)
              else (.error err, [.read parsedName true])

/-- A concrete backend whose reads always miss with a 404. -/
def env404 : Env where
  readFile := fun _ _ => .error ⟨404, "Image not exists in storage"⟩
  uploadFile := fun _ _ => .ok ()
  convert := fun image _ _ => .ok image

/-! ## Supporting lemmas about the embedded helpers -/

theorem splitChar_of_not_mem {sep : Char} :
    ∀ {l : List Char}, sep ∉ l → splitChar sep l = [l]
  | [], _ => rfl
  | c :: cs, h => by
    have hc : ¬ c = sep := fun hc => h (hc ▸ List.mem_cons_self c cs)
    have ih :=
      splitChar_of_not_mem (l := cs) (fun hm => h (List.mem_cons_of_mem c hm))
    simp [splitChar, ih, hc]

theorem extOf_no_dot {path : String} (h : '.' ∉ path.data) :
    extOf path = path := by
  unfold extOf
  rw [splitChar_of_not_mem h]
  cases path
  rfl

theorem validateImageExtension_error_status {x : Option String}
    {e : ErrorObject} (h : validateImageExtension x = .error e) :
    e.status = 400 := by
  unfold validateImageExtension at h
  split at h
  · cases h
  · split at h
    · cases h
    · split at h
      · cases h
      · injection h with h'
        rw [← h']

theorem validateQueryParamsStep_error_status {acc : List (String × JsValue)}
    {kv : String × String} {e : ErrorObject}
    (h : validateQueryParamsStep acc kv = .error e) : e.status = 400 := by
  unfold validateQueryParamsStep at h
  dsimp only at h
  split at h
  · injection h with h'; rw [← h']
  · split at h
    · split at h
      · injection h with h'; rw [← h']
      · split at h
        · injection h with h'; rw [← h']
        · split at h
          · injection h with h'; rw [← h']
          · cases h
    · split at h
      · split at h
        · cases h
        · split at h
          · cases h
          · injection h with h'; rw [← h']
      · split at h
        · split at h
          · rename_i heq
            injection h with h'
            rw [← h']
            exact validateImageExtension_error_status heq
          · cases h
          · cases h
        · split at h
          · cases h
          · injection h with h'; rw [← h']

theorem foldlM_validate_error_status :
    ∀ {qs : List (String × String)} {acc : List (String × JsValue)}
      {e : ErrorObject},
      List.foldlM validateQueryParamsStep acc qs = .error e → e.status = 400 := by
  intro qs
  induction qs with
  | nil => intro acc e h; cases h
  | cons kv rest ih =>
    intro acc e h
    rw [List.foldlM_cons] at h
    rcases hstep : validateQueryParamsStep acc kv with e' | acc'
    · rw [hstep] at h
      have he : e' = e := by
        simpa [Bind.bind, Except.bind] using h
      exact he ▸ validateQueryParamsStep_error_status hstep
    · rw [hstep] at h
      simp only [Bind.bind, Except.bind] at h
      exact ih h

theorem validateQueryParams_error_status {qs : List (String × String)}
    {e : ErrorObject} (h : validateQueryParams qs = .error e) :
    e.status = 400 :=
  foldlM_validate_error_status h

/-! ## Claim C5: rejection of empty transform specs -/

/-- C5 (amended): for every path whose extracted extension is nonempty
and every raw parameter record whose validated spec is empty,
`getImage` fails with the status-400 "Query params required for
conversion" error and performs no storage operation (and hence no
transformation). -/
theorem C5_empty_params_rejected (env : Env) (imagePath : String)
    (queryParams : List (String × String))
    (hext : ¬ extOf imagePath = "")
    (hval : validateQueryParams queryParams = .ok []) :
    getImage env imagePath queryParams =
      (.error ⟨400, "Query params required for conversion"⟩, []) := by
  unfold getImage
  simp [hext, hval]

/-- Witness for the amended C5 at a concrete input. -/
theorem C5_witness :
    (¬ extOf "img.png" = "") ∧
    validateQueryParams [] = .ok [] ∧
    getImage env404 "img.png" [] =
      (.error ⟨400, "Query params required for conversion"⟩, []) :=
  ⟨by decide, rfl, C5_empty_params_rejected env404 "img.png" [] (by decide) rfl⟩

/-- Counterexample to C5 as stated: the claim quantifies over every
path, but for a path whose extracted extension is empty (for example
`"a."`) the 400 error raised states that the file extension is
missing, not that query params are required. -/
theorem C5_counterexample :
    getImage env404 "a." [] =
      (.error ⟨400, "File extension is missing"⟩, []) ∧
    "File extension is missing" ≠ "Query params required for conversion" :=
  ⟨rfl, by decide⟩

/-! ## Claim C6: the cache-store write is fire-and-forget -/

/-- C6: on the cache-miss path, once the original bytes are read and
converted, `processImage` returns the converted bytes with the output
extension no matter what the upload of those bytes does: the result is
the same for every possible `uploadFile` oracle, and the write outcome
is only recorded (`Silent`), never surfaced. -/
theorem C6_processImage_write_fire_and_forget (env : Env)
    (originalPath originalName parsedName : String)
    (operations : List (String × JsValue)) (newExtension : String)
    (image converted : List Nat)
    (hr : env.readFile originalPath false = .ok image)
    (hc : env.convert image operations newExtension = .ok converted) :
    (processImage env originalPath originalName parsedName operations
        newExtension).1 = .ok ⟨converted, newExtension⟩ ∧
    ∀ u : String → List Nat → Except ErrorObject Unit,
      (processImage { env with uploadFile := u } originalPath originalName
          parsedName operations newExtension).1 =
      (processImage env originalPath originalName parsedName operations
          newExtension).1 := by
  constructor
  · simp [processImage, hr, hc]
  · intro u
    simp [processImage, hr, hc]

/-- Witness for C6: a backend whose uploads always fail still returns
the converted bytes. -/
def envUploadFails : Env where
  readFile := fun _ _ => .ok [7]
  uploadFile := fun _ _ => .error ⟨502, "upload refused"⟩
  convert := fun image _ _ => .ok image

theorem C6_witness :
    envUploadFails.readFile "dir/img.png" false = .ok [7] ∧
    envUploadFails.convert [7] [] "png" = .ok [7] ∧
    (processImage envUploadFails "dir/img.png" "img.png" "img-w-100.png"
        [] "png").1 = .ok ⟨[7], "png"⟩ :=
  ⟨rfl, rfl,
   (C6_processImage_write_fire_and_forget envUploadFails "dir/img.png"
      "img.png" "img-w-100.png" [] "png" [7] [7] rfl rfl).1⟩

/-! ## Claim C4: cache-read 404 recovery, other errors propagate -/

/-- C4: in `getImage`, once the request passes validation, a 404 from
reading the derived cache-key name is never surfaced: it resolves into
`processImage`, which fetches the original at the request path
(`fromConvertPath = false`) and recomputes; any cache-read error other
than 404 is propagated unchanged; and when the original read itself
fails, that error (404 for an absent original) is surfaced terminally
with exactly one read of the original — no retry. -/
theorem C4_cache_read_error_routing (env : Env) (imagePath : String)
    (queryParams : List (String × String)) (vp : List (String × JsValue))
    (newExtension originalExtension : Option String)
    (fe pn originalName : String)
    (hext : ¬ extOf imagePath = "")
    (hval : validateQueryParams queryParams = .ok vp)
    (hne : vp ≠ [])
    (hfmt : validateImageExtension (lookupStr queryParams "format") =
      .ok newExtension)
    (horig : validateImageExtension (some (extOf imagePath)) =
      .ok originalExtension)
    (hfe : fe = jsOrStr newExtension (originalExtension.getD ""))
    (hpn : pn = createNameFromParams (nameOf imagePath) fe queryParams)
    (hon : originalName = nameOf imagePath ++ "." ++ extOf imagePath) :
    (∀ e, env.readFile pn true = .error e → e.status = 404 →
      getImage env imagePath queryParams =
        ((processImage env imagePath originalName pn vp fe).1,
         .read pn true :: (processImage env imagePath originalName pn vp fe).2)) ∧
    (∀ e, env.readFile pn true = .error e → e.status ≠ 404 →
      getImage env imagePath queryParams = (.error e, [.read pn true])) ∧
    (∀ e e₂, env.readFile pn true = .error e → e.status = 404 →
      env.readFile imagePath false = .error e₂ →
      getImage env imagePath queryParams =
        (.error e₂, [.read pn true, .read imagePath false])) := by
  subst hfe hpn hon
  refine ⟨?_, ?_, ?_⟩
  · intro e hread h404
    unfold getImage
    simp [hext, hval, hne, hfmt, horig, hread, h404]
  · intro e hread h404
    unfold getImage
    simp [hext, hval, hne, hfmt, horig, hread, h404]
  · intro e e₂ hread h404 horigread
    unfold getImage
    simp [hext, hval, hne, hfmt, horig, hread, h404, processImage, horigread]

/-- Witness for C4: a backend missing both the cached name and the
original serves a terminal 404 after exactly one recompute attempt. -/
theorem C4_witness :
    (¬ extOf "img.png" = "") ∧
    validateQueryParams [("width", "100")] = .ok [("width", JsValue.num 100)] ∧
    getImage env404 "img.png" [("width", "100")] =
      (.error ⟨404, "Image not exists in storage"⟩,
       [.read "img-w-100.png" true, .read "img.png" false]) :=
  ⟨by decide, rfl,
   (C4_cache_read_error_routing env404 "img.png" [("width", "100")]
      [("width", JsValue.num 100)] none (some "png") "png" "img-w-100.png"
      "img.png" (by decide) rfl (by decide) rfl rfl rfl rfl rfl).2.2
     ⟨404, "Image not exists in storage"⟩ ⟨404, "Image not exists in storage"⟩
     rfl rfl rfl⟩

/-! ## Claim C9: dotless paths -/

/-- Counterexample to C9 as stated: the claim quantifies over every
path with no `.`-separated extension, but `split(".").pop()` returns
the whole path when it contains no dot, so a dotless path that happens
to be a supported format name (here `"png"`) validates as its own
extension and `getImage` proceeds to storage reads instead of failing
with a 400 before any storage call. -/
theorem C9_counterexample :
    ('.' ∉ "png".data) ∧
    getImage env404 "png" [("width", "100")] =
      (.error ⟨404, "Image not exists in storage"⟩,
       [.read "png-w-100.png" true, .read "png" false]) ∧
    ([StorageEvent.read "png-w-100.png" true,
      StorageEvent.read "png" false] : List StorageEvent) ≠ [] :=
  ⟨by decide, rfl, by simp⟩

/-- C9 (amended): for every path containing no dot whose whole text is
not itself a supported format name, `getImage` fails with a status-400
error before any storage read or write is performed. -/
theorem C9_no_extension_rejected (env : Env) (imagePath : String)
    (queryParams : List (String × String))
    (hdot : '.' ∉ imagePath.data)
    (hfmt : lookupStr formatMap (jsToLower imagePath) = none) :
    (getImage env imagePath queryParams).2 = [] ∧
    ∃ e, (getImage env imagePath queryParams).1 = .error e ∧
      e.status = 400 := by
  have hext : extOf imagePath = imagePath := extOf_no_dot hdot
  by_cases hempty : imagePath = ""
  · subst hempty
    exact ⟨rfl, ⟨400, "File extension is missing"⟩, rfl, rfl⟩
  · have hvi : validateImageExtension (some imagePath) =
        .error ⟨400, "Unsupported image extension: " ++ imagePath⟩ := by
      simp [validateImageExtension, hempty, hfmt]
    rcases hval : validateQueryParams queryParams with e | vp
    · constructor
      · unfold getImage
        simp [hext, hempty, hval]
      · refine ⟨e, ?_, validateQueryParams_error_status hval⟩
        unfold getImage
        simp [hext, hempty, hval]
    · by_cases hne : vp = []
      · subst hne
        constructor
        · unfold getImage
          simp [hext, hempty, hval]
        · refine ⟨⟨400, "Query params required for conversion"⟩, ?_, rfl⟩
          unfold getImage
          simp [hext, hempty, hval]
      · rcases hf : validateImageExtension (lookupStr queryParams "format")
          with e | newExt
        · constructor
          · unfold getImage
            simp [hext, hempty, hval, hne, hf]
          · refine ⟨e, ?_, validateImageExtension_error_status hf⟩
            unfold getImage
            simp [hext, hempty, hval, hne, hf]
        · constructor
          · unfold getImage
            simp [hext, hempty, hval, hne, hf, hvi]
          · refine ⟨⟨400, "Unsupported image extension: " ++ imagePath⟩,
              ?_, rfl⟩
            unfold getImage
            simp [hext, hempty, hval, hne, hf, hvi]

/-- Witness for the amended C9 at the spec's example path. -/
theorem C9_witness :
    ('.' ∉ "noext".data) ∧
    lookupStr formatMap (jsToLower "noext") = none ∧
    (getImage env404 "noext" [("width", "100")]).2 = [] ∧
    (∃ e, (getImage env404 "noext" [("width", "100")]).1 = .error e ∧
      e.status = 400) :=
  ⟨by decide, rfl,
   (C9_no_extension_rejected env404 "noext" [("width", "100")]
      (by decide) rfl).1,
   (C9_no_extension_rejected env404 "noext" [("width", "100")]
      (by decide) rfl).2⟩

/-! ## Claim C8: the transform pipeline order (`CtrlImage.convertImage`) -/

/-- One sharp operation as chained by `convertImage`. -/
inductive SharpOp where
  | resize (w h : Option JsValue)
  | rotate (a : JsValue)
  | grayscale
  | blur (s : JsValue)
  | flip
  | flop
  | tint (c : JsValue)
  | toFormat (fmt : String) (q : Option ℚ)
  deriving DecidableEq, Repr

/-- JS record field access `ops[k]`, `none` when the key is absent. -/
def lookupJs (ops : List (String × JsValue)) (k : String) : Option JsValue :=
  (ops.find? (fun kv => kv.1 == k)).map (fun kv => kv.2)

/-- JS record field access yielding `undefined` when the key is absent. -/
def jsGet (ops : List (String × JsValue)) (k : String) : JsValue :=
  (lookupJs ops k).getD .undefined

/-- JS `Number(v)` on a runtime value (used for `operations.quality`). -/
def jsToNumber : JsValue → Option ℚ
  | .num q => some q
  | .bool b => some (if b then 1 else 0)
  | .str s => jsNumber s
  | .undefined => none

/-- `CtrlImage.convertImage` from `ctrlImage.ts`, modelled as the exact
sequence of sharp operations applied to the pixel engine: resize first
when `operations.width || operations.height` is truthy; then the loop
over the record's entries in enumeration order, where the switch
dispatches only its six cases (all other keys fall through untouched);
finally `toFormat` when `operations.format || operations.quality` is
truthy, with the quality argument `undefined` when quality is falsy. -/
def convertImage (operations : List (String × JsValue))
    (extension : String) : List SharpOp :=
  (if truthy (jsGet operations "width") || truthy (jsGet operations "height")
   then [SharpOp.resize (lookupJs operations "width")
          (lookupJs operations "height")]
   else []) ++
  operations.filterMap (fun kv =>
    if kv.1 = "rotate" then some (SharpOp.rotate kv.2)
    else if kv.1 = "greyscale" then some SharpOp.grayscale
    else if kv.1 = "blur" then some (SharpOp.blur kv.2)
    else if kv.1 = "flip" then some SharpOp.flip
    else if kv.1 = "flop" then some SharpOp.flop
    else if kv.1 = "tint" then some (SharpOp.tint kv.2)
    else none) ++
  (if truthy (jsGet operations "format") || truthy (jsGet operations "quality")
   then [SharpOp.toFormat extension
          (if truthy (jsGet operations "quality")
           then jsToNumber (jsGet operations "quality") else none)]
   else [])

/-- The pipeline order asserted by claim C8, stated from its words:
resize first whenever `width` or `height` is PRESENT; the remaining
operations in the claim's canonical field enumeration
(rotate, greyscale, blur, flip, flop, tint); format/quality encoding
last whenever `format` or `quality` is present. -/
def convertImageClaimC8 (operations : List (String × JsValue))
    (extension : String) : List SharpOp :=
  (if (lookupJs operations "width").isSome ∨
      (lookupJs operations "height").isSome
   then [SharpOp.resize (lookupJs operations "width")
          (lookupJs operations "height")]
   else []) ++
  (["rotate", "greyscale", "blur", "flip", "flop", "tint"].filterMap
    (fun k =>
      match lookupJs operations k with
      | some v =>
        if k = "rotate" then some (SharpOp.rotate v)
        else if k = "greyscale" then some SharpOp.grayscale
        else if k = "blur" then some (SharpOp.blur v)
        else if k = "flip" then some SharpOp.flip
        else if k = "flop" then some SharpOp.flop
        else some (SharpOp.tint v)
      | none => none)) ++
  (if (lookupJs operations "format").isSome ∨
      (lookupJs operations "quality").isSome
   then [SharpOp.toFormat extension
          ((lookupJs operations "quality").bind jsToNumber)]
   else [])

/-- Counterexample to C8 as stated: with a width of 0 (present but
falsy) no resize is applied, and the loop applies the dispatched
operations in the record's enumeration order (tint before rotate before
blur here), not in any fixed canonical field order. -/
theorem C8_counterexample :
    convertImage
      [("width", JsValue.num 0), ("tint", JsValue.str "ff0000"),
       ("rotate", JsValue.num 90), ("blur", JsValue.num 2)] "png" =
      [SharpOp.tint (JsValue.str "ff0000"), SharpOp.rotate (JsValue.num 90),
       SharpOp.blur (JsValue.num 2)] ∧
    convertImageClaimC8
      [("width", JsValue.num 0), ("tint", JsValue.str "ff0000"),
       ("rotate", JsValue.num 90), ("blur", JsValue.num 2)] "png" =
      [SharpOp.resize (some (JsValue.num 0)) none,
       SharpOp.rotate (JsValue.num 90), SharpOp.blur (JsValue.num 2),
       SharpOp.tint (JsValue.str "ff0000")] ∧
    convertImage
      [("width", JsValue.num 0), ("tint", JsValue.str "ff0000"),
       ("rotate", JsValue.num 90), ("blur", JsValue.num 2)] "png" ≠
    convertImageClaimC8
      [("width", JsValue.num 0), ("tint", JsValue.str "ff0000"),
       ("rotate", JsValue.num 90), ("blur", JsValue.num 2)] "png" :=
  ⟨rfl, rfl, by decide⟩

/-- The six switch-dispatched operation keys of the `convertImage` loop. -/
def sixOpKeys : List String :=
  ["rotate", "greyscale", "blur", "flip", "flop", "tint"]

/-- The sharp operation a dispatched entry produces. -/
def toSharpOp (kv : String × JsValue) : SharpOp :=
  if kv.1 = "rotate" then SharpOp.rotate kv.2
  else if kv.1 = "greyscale" then SharpOp.grayscale
  else if kv.1 = "blur" then SharpOp.blur kv.2
  else if kv.1 = "flip" then SharpOp.flip
  else if kv.1 = "flop" then SharpOp.flop
  else SharpOp.tint kv.2

/-- C8 as amended: resize first iff `width` or `height` is truthy (a
present-but-zero width does not resize); then the entries whose key is
one of the six dispatched operations, in the record's own enumeration
order; the format/quality encoding, when applied at all, comes last. -/
def convertImageAmendedSpec (operations : List (String × JsValue))
    (extension : String) : List SharpOp :=
  (if truthy (jsGet operations "width") || truthy (jsGet operations "height")
   then [SharpOp.resize (lookupJs operations "width")
          (lookupJs operations "height")]
   else []) ++
  operations.filterMap (fun kv =>
    if sixOpKeys.contains kv.1 then some (toSharpOp kv) else none) ++
  (if truthy (jsGet operations "format") || truthy (jsGet operations "quality")
   then [SharpOp.toFormat extension
          (if truthy (jsGet operations "quality")
           then jsToNumber (jsGet operations "quality") else none)]
   else [])

/-- C8 (amended, proved): `convertImage` applies exactly the amended
order — truthiness-gated resize first, the six dispatched operations in
record enumeration order, encoding last. -/
theorem C8_convertImage_order (operations : List (String × JsValue))
    (extension : String) :
    convertImage operations extension =
      convertImageAmendedSpec operations extension := by
  unfold convertImage convertImageAmendedSpec
  have hpt : ∀ kv : String × JsValue,
      (if kv.1 = "rotate" then some (SharpOp.rotate kv.2)
       else if kv.1 = "greyscale" then some SharpOp.grayscale
       else if kv.1 = "blur" then some (SharpOp.blur kv.2)
       else if kv.1 = "flip" then some SharpOp.flip
       else if kv.1 = "flop" then some SharpOp.flop
       else if kv.1 = "tint" then some (SharpOp.tint kv.2)
       else none) =
      (if sixOpKeys.contains kv.1 then some (toSharpOp kv) else none) := by
    intro kv
    rcases kv with ⟨k, v⟩
    by_cases h1 : k = "rotate"
    · subst h1; rfl
    · by_cases h2 : k = "greyscale"
      · subst h2; rfl
      · by_cases h3 : k = "blur"
        · subst h3; rfl
        · by_cases h4 : k = "flip"
          · subst h4; rfl
          · by_cases h5 : k = "flop"
            · subst h5; rfl
            · by_cases h6 : k = "tint"
              · subst h6; rfl
              · have hc : k ∉ sixOpKeys := by
                  simp [sixOpKeys, h1, h2, h3, h4, h5, h6]
                simp [h1, h2, h3, h4, h5, h6, hc]
  rw [funext hpt]

/-! ## The batch runner (`CtrlBatch`) -/

/-- One recorded batch failure: the offending path and the caught
error (`error.message || error` — the embedded errors are
`ErrorObject`s, which carry their message in `error`). -/
structure BatchError where
  filePath : String
  error : ErrorObject
  deriving DecidableEq, Repr

/-- `BatchProgress`: the snapshot persisted after every file. -/
structure BatchProgress where
  done : Nat
  pending : Nat
  errors : List BatchError
  deriving DecidableEq, Repr

/-- The Redis progress store as a key-value capability; the JSON
serialisation round-trip of `saveProgress`/`getProgress` is opaque to
the runner and modelled as the identity. -/
def ProgressStore : Type := String → Option BatchProgress

/-- `CtrlRedis.saveProgress`: set `batch:process:{token}` (overwrite). -/
def saveProgressStore (store : ProgressStore) (token : String)
    (p : BatchProgress) : ProgressStore :=
  fun k => if k = "batch:process:" ++ token then some p else store k

/-- `CtrlRedis.getProgress`: read `batch:process:{token}`. -/
def getProgress (store : ProgressStore) (token : String) :
    Option BatchProgress :=
  store ("batch:process:" ++ token)

theorem getProgress_save (store : ProgressStore) (token : String)
    (p : BatchProgress) :
    getProgress (saveProgressStore store token p) token = some p := by
  simp [getProgress, saveProgressStore]

/-- The `CtrlImage.processImage` revision whose six-argument signature
`CtrlBatch._processFiles` invokes: read
`{originalName}.{originalExtension}` (the batch passes the full file
path as `originalName`), convert with the raw transformation record,
then fire-and-forget both the upload of the parsed name and the Redis
image-ref bookkeeping — neither outcome affects the returned value. -/
def processImageRef (env : Env) (originalName parsedName : String)
    (operations : List (String × JsValue))
    (originalExtension newExtension : String) :
    Except ErrorObject ImageResponse :=
  match env.readFile (originalName ++ "." ++ originalExtension) true with
  | .error e => .error e
  | .ok image =>
    match env.convert image operations newExtension with
    | .error e => .error e
    | .ok converted =>
      let _uploadOutcome := env.uploadFile parsedName converted
      .ok ⟨converted, newExtension⟩

/-- One file's work inside the `try` of `_processFiles`: extract
extension and base name, validate the original extension and the
requested format, derive the parsed name from the raw transformation
record, and run the transform-and-store path. The raw string record is
what reaches the convert call. -/
def batchAttemptFile (env : Env) (transformations : List (String × String))
    (filePath : String) : Except ErrorObject ImageResponse :=
  let ext := extOf filePath
  let originalName := nameOf filePath
  if ext = "" then .error ⟨400, "File extension is missing"⟩
  else
    match validateImageExtension (some ext) with
    | .error e => .error e
    | .ok originalExtension =>
      match validateImageExtension (lookupStr transformations "format") with
      | .error e => .error e
      | .ok newExtension =>
        let finalExt := jsOrStr newExtension (originalExtension.getD "")
        let parsedName :=
          createNameFromParams originalName finalExt transformations
        processImageRef env filePath parsedName
          (transformations.map (fun kv => (kv.1, JsValue.str kv.2)))
          (originalExtension.getD "") finalExt

/-- The error entry a file contributes when its attempt fails
(`errors.push({filePath, error: error.message || error})`). -/
def attemptError (env : Env) (transformations : List (String × String))
    (filePath : String) : Option BatchError :=
  match batchAttemptFile env transformations filePath with
  | .ok _ => none
  | .error e => some ⟨filePath, e⟩

/-- The loop state of `_processFiles`: the counters and error list,
the sequence of snapshots persisted so far (`saved`, in order), the
files attempted so far, and the progress store. -/
structure BatchState where
  done : Nat
  pending : Nat
  errors : List BatchError
  saved : List BatchProgress
  attempted : List String
  store : ProgressStore

/-- One iteration of the `for await` loop in `_processFiles`: attempt
the file; on success increment `done`, on failure push the error
record; either way decrement `pending`, and in the `finally` persist
the snapshot under the token. -/
def processFilesStep (env : Env) (token : String)
    (transformations : List (String × String)) (st : BatchState)
    (filePath : String) : BatchState :=
  let st' :=
    match batchAttemptFile env transformations filePath with
    | .ok _ => { st with done := st.done + 1, pending := st.pending - 1 }
    | .error e =>
      { st with errors := st.errors ++ [(⟨filePath, e⟩ : BatchError)],
                pending := st.pending - 1 }
  { st' with
    saved := st'.saved ++
      [(⟨st'.done, st'.pending, st'.errors⟩ : BatchProgress)],
    attempted := st'.attempted ++ [filePath],
    store := saveProgressStore st'.store token
      (⟨st'.done, st'.pending, st'.errors⟩ : BatchProgress) }

/-- `CtrlBatch._processFiles`: initialise `done = 0`,
`pending = files.length`, empty errors, persist the initial snapshot,
then run the loop over the files. -/
def processFiles (env : Env) (token : String) (files : List String)
    (transformations : List (String × String)) : BatchState :=
  let init : BatchState :=
    { done := 0, pending := files.length, errors := [],
      saved := [⟨0, files.length, []⟩], attempted := [],
      store := saveProgressStore (fun _ => none) token
        ⟨0, files.length, []⟩ }
  files.foldl (processFilesStep env token transformations) init

/-- `CtrlBatch.batchTransformAndUploadFromList`: validate the
transformations, resolve the storage backend from the registry, reject
empty transformation sets and empty file lists, then run
`_processFiles`. -/
def batchTransformAndUploadFromList (registry : List (String × Env))
    (token storageName : String) (filePaths : List String)
    (transformations : List (String × String)) :
    Except ErrorObject BatchState :=
  match validateQueryParams transformations with
  | .error e => .error e
  | .ok validated =>
    match (registry.find? (fun kv => kv.1 == storageName)).map
        (fun kv => kv.2) with
    | none => .error ⟨400, "Storage '" ++ storageName ++ "' not found."⟩
    | some env =>
      if validated.length = 0 then
        .error ⟨400, "No transformations provided."⟩
      else if filePaths.length = 0 then
        .error ⟨400, "No files provided for processing."⟩
      else .ok (processFiles env token filePaths transformations)

/-! ## Loop lemmas for the batch runner -/

theorem length_filterMap_add_countP {α β : Type} (f : α → Option β) :
    ∀ l : List α,
      (l.filterMap f).length + l.countP (fun a => (f a).isNone) = l.length
  | [] => rfl
  | a :: l => by
    have ih := length_filterMap_add_countP f l
    rw [List.filterMap_cons, List.countP_cons]
    cases h : f a <;> simp [h] <;> omega

/-- What one loop iteration does to the state. -/
theorem processFilesStep_spec (env : Env) (token : String)
    (transformations : List (String × String)) (st : BatchState)
    (filePath : String) :
    (processFilesStep env token transformations st filePath).done =
      st.done + (if (attemptError env transformations filePath).isNone
        then 1 else 0) ∧
    (processFilesStep env token transformations st filePath).errors =
      st.errors ++ (attemptError env transformations filePath).toList ∧
    (processFilesStep env token transformations st filePath).pending =
      st.pending - 1 ∧
    (processFilesStep env token transformations st filePath).attempted =
      st.attempted ++ [filePath] ∧
    (processFilesStep env token transformations st filePath).saved =
      st.saved ++
        [⟨(processFilesStep env token transformations st filePath).done,
          (processFilesStep env token transformations st filePath).pending,
          (processFilesStep env token transformations st filePath).errors⟩] ∧
    getProgress
        (processFilesStep env token transformations st filePath).store token =
      some ⟨(processFilesStep env token transformations st filePath).done,
        (processFilesStep env token transformations st filePath).pending,
        (processFilesStep env token transformations st filePath).errors⟩ := by
  rcases hA : batchAttemptFile env transformations filePath with e | r <;>
    simp [processFilesStep, attemptError, hA, getProgress_save]

/-- What the whole loop does, for any starting state whose snapshot is
retrievable. -/
theorem processFiles_foldl_spec (env : Env) (token : String)
    (transformations : List (String × String)) :
    ∀ (fs : List String) (st : BatchState),
      getProgress st.store token = some ⟨st.done, st.pending, st.errors⟩ →
      (fs.foldl (processFilesStep env token transformations) st).done =
        st.done +
          fs.countP (fun f => (attemptError env transformations f).isNone) ∧
      (fs.foldl (processFilesStep env token transformations) st).errors =
        st.errors ++ fs.filterMap (attemptError env transformations) ∧
      (fs.foldl (processFilesStep env token transformations) st).pending =
        st.pending - fs.length ∧
      (fs.foldl (processFilesStep env token transformations) st).attempted =
        st.attempted ++ fs ∧
      (fs.foldl (processFilesStep env token transformations) st).saved.length =
        st.saved.length + fs.length ∧
      getProgress
          (fs.foldl (processFilesStep env token transformations) st).store
          token =
        some ⟨(fs.foldl (processFilesStep env token transformations) st).done,
          (fs.foldl (processFilesStep env token transformations) st).pending,
          (fs.foldl (processFilesStep env token transformations) st).errors⟩ := by
  intro fs
  induction fs with
  | nil =>
    intro st hst
    simpa using hst
  | cons f rest ih =>
    intro st hst
    simp only [List.foldl_cons]
    obtain ⟨hd, he, hp, ha, hs, hg⟩ :=
      processFilesStep_spec env token transformations st f
    obtain ⟨ihd, ihe, ihp, iha, ihs, ihg⟩ :=
      ih (processFilesStep env token transformations st f) hg
    refine ⟨?_, ?_, ?_, ?_, ?_, ihg⟩
    · rw [ihd, hd, List.countP_cons]
      cases hA : (attemptError env transformations f).isNone
      all_goals simp [hA]
      all_goals omega
    · rw [ihe, he, List.filterMap_cons]
      cases hA : attemptError env transformations f <;>
        simp [hA]
    · rw [ihp, hp, List.length_cons]
      omega
    · rw [iha, ha]
      simp
    · rw [ihs, hs]
      simp [List.length_cons]
      omega

/-! ## Claim C7: batch partial failure accounting -/

/-- C7: a list-variant batch run over `files` attempts every file (no
abort on first error), and ends with `done = n − |failures|`,
`pending = 0`, the error list containing exactly one entry per failed
file (its path with the caught error) in file order, one persisted
snapshot per file after the initial one, and the final snapshot
retrievable by the token. -/
theorem C7_batch_list_partial_failure (registry : List (String × Env))
    (token storageName : String) (env : Env) (files : List String)
    (transformations : List (String × String))
    (validated : List (String × JsValue))
    (hreg : (registry.find? (fun kv => kv.1 == storageName)).map
      (fun kv => kv.2) = some env)
    (hval : validateQueryParams transformations = .ok validated)
    (hne : validated ≠ [])
    (hfiles : files ≠ []) :
    ∃ st, batchTransformAndUploadFromList registry token storageName files
        transformations = .ok st ∧
      st.attempted = files ∧
      st.errors = files.filterMap (attemptError env transformations) ∧
      st.done = files.length -
        (files.filterMap (attemptError env transformations)).length ∧
      st.pending = 0 ∧
      st.saved.length = files.length + 1 ∧
      getProgress st.store token = some ⟨st.done, 0, st.errors⟩ := by
  have hPF : processFiles env token files transformations =
      files.foldl (processFilesStep env token transformations)
        { done := 0, pending := files.length, errors := [],
          saved := [⟨0, files.length, []⟩], attempted := [],
          store := saveProgressStore (fun _ => none) token
            ⟨0, files.length, []⟩ } := rfl
  obtain ⟨hd, he, hp, ha, hs, hg⟩ :=
    processFiles_foldl_spec env token transformations files
      { done := 0, pending := files.length, errors := [],
        saved := [⟨0, files.length, []⟩], attempted := [],
        store := saveProgressStore (fun _ => none) token
          ⟨0, files.length, []⟩ }
      (getProgress_save _ _ _)
  rw [← hPF] at hd he hp ha hs hg
  dsimp only at hd he hp ha hs
  refine ⟨processFiles env token files transformations, ?_, ?_, ?_, ?_, ?_,
    ?_, ?_⟩
  · unfold batchTransformAndUploadFromList
    rw [hval, hreg]
    have h1 : ¬ validated.length = 0 := by
      simpa [List.length_eq_zero] using hne
    have h2 : ¬ files.length = 0 := by
      simpa [List.length_eq_zero] using hfiles
    simp [h1, h2]
  · simpa using ha
  · simpa using he
  · rw [hd]
    have := length_filterMap_add_countP (attemptError env transformations)
      files
    omega
  · rw [hp]
    omega
  · rw [hs]
    simp only [List.length_singleton]
    omega
  · have hp0 : (processFiles env token files transformations).pending = 0 := by
      rw [hp]; omega
    rw [hp0] at hg
    exact hg

/-- The backend of the C7 witness: the original of `c.png` (read by
the batch path at key `c.png.png`) is unreadable, everything else
succeeds. -/
def env5 : Env where
  readFile := fun key _ =>
    if key = "c.png.png" then .error ⟨404, "Image not exists in storage"⟩
    else .ok [1]
  uploadFile := fun _ _ => .ok ()
  convert := fun image _ _ => .ok image

/-- Witness for C7: five files with file 3 unreadable end at
`done = 4`, `pending = 0`, a single error entry for `c.png`, and the
snapshot retrievable under the token. -/
theorem C7_witness :
    (([("s3", env5)].find? (fun kv => kv.1 == "s3")).map (fun kv => kv.2) =
      some env5) ∧
    validateQueryParams [("width", "100")] =
      .ok [("width", JsValue.num 100)] ∧
    (∃ st, batchTransformAndUploadFromList [("s3", env5)] "tok" "s3"
        ["a.png", "b.png", "c.png", "d.png", "e.png"] [("width", "100")] =
          .ok st ∧
      st.attempted = ["a.png", "b.png", "c.png", "d.png", "e.png"] ∧
      st.errors = ["a.png", "b.png", "c.png", "d.png", "e.png"].filterMap
        (attemptError env5 [("width", "100")]) ∧
      st.done = (["a.png", "b.png", "c.png", "d.png", "e.png"] :
          List String).length -
        ((["a.png", "b.png", "c.png", "d.png", "e.png"] :
          List String).filterMap (attemptError env5 [("width", "100")])).length ∧
      st.pending = 0 ∧
      st.saved.length = (["a.png", "b.png", "c.png", "d.png", "e.png"] :
          List String).length + 1 ∧
      getProgress st.store "tok" = some ⟨st.done, 0, st.errors⟩) ∧
    (["a.png", "b.png", "c.png", "d.png", "e.png"] : List String).filterMap
        (attemptError env5 [("width", "100")]) =
      [⟨"c.png", ⟨404, "Image not exists in storage"⟩⟩] ∧
    (processFiles env5 "tok" ["a.png", "b.png", "c.png", "d.png", "e.png"]
        [("width", "100")]).done = 4 ∧
    (processFiles env5 "tok" ["a.png", "b.png", "c.png", "d.png", "e.png"]
        [("width", "100")]).pending = 0 :=
  ⟨rfl, rfl,
   C7_batch_list_partial_failure [("s3", env5)] "tok" "s3" env5
     ["a.png", "b.png", "c.png", "d.png", "e.png"] [("width", "100")]
     [("width", JsValue.num 100)] rfl rfl (by decide) (by decide),
   rfl, rfl, rfl⟩

/-! ## Claim C10: the progress snapshot invariants -/

/-- The relation between two consecutive persisted snapshots: pending
drops by exactly one, done and the error count never decrease. -/
def batchRel (p q : BatchProgress) : Prop :=
  q.pending + 1 = p.pending ∧ p.done ≤ q.done ∧
  p.errors.length ≤ q.errors.length

/-- Invariant preservation along the `_processFiles` loop, for a state
whose pending counter equals the number of files left. -/
theorem processFiles_saved_invariant (env : Env) (token : String)
    (transformations : List (String × String)) (n : Nat) :
    ∀ (fs : List String) (st : BatchState),
      st.done + st.pending + st.errors.length = n →
      st.pending = fs.length →
      st.saved.getLast? = some ⟨st.done, st.pending, st.errors⟩ →
      (∀ p ∈ st.saved, p.done + p.pending + p.errors.length = n) →
      List.Chain' batchRel st.saved →
      (∀ p ∈ (fs.foldl (processFilesStep env token transformations) st).saved,
        p.done + p.pending + p.errors.length = n) ∧
      List.Chain' batchRel
        (fs.foldl (processFilesStep env token transformations) st).saved ∧
      (fs.foldl (processFilesStep env token transformations) st).saved.head? =
        st.saved.head? ∧
      (fs.foldl (processFilesStep env token transformations) st).pending =
        0 := by
  intro fs
  induction fs with
  | nil =>
    intro st hsum hpend hlast hall hchain
    exact ⟨hall, hchain, rfl, hpend⟩
  | cons f rest ih =>
    intro st hsum hpend hlast hall hchain
    simp only [List.foldl_cons]
    obtain ⟨hd, he, hp, _ha, hs, _hg⟩ :=
      processFilesStep_spec env token transformations st f
    have hpendpos : st.pending = rest.length + 1 := by
      rw [hpend]; rfl
    set st' := processFilesStep env token transformations st f with hst'
    have hfacts : st.done ≤ st'.done ∧ st.errors.length ≤ st'.errors.length ∧
        st'.done + st'.errors.length = st.done + st.errors.length + 1 := by
      rcases hA : attemptError env transformations f with _ | b <;>
        rw [hA] at hd he <;> simp at hd he <;> simp [hd, he] <;> omega
    have hsum' : st'.done + st'.pending + st'.errors.length = n := by
      omega
    have hpend' : st'.pending = rest.length := by
      omega
    have hlast' : st'.saved.getLast? =
        some ⟨st'.done, st'.pending, st'.errors⟩ := by
      rw [hs, List.getLast?_concat]
    have hall' : ∀ p ∈ st'.saved,
        p.done + p.pending + p.errors.length = n := by
      intro p hmem
      rw [hs] at hmem
      rcases List.mem_append.mp hmem with h | h
      · exact hall p h
      · rw [List.mem_singleton.mp h]
        exact hsum'
    have hchain' : List.Chain' batchRel st'.saved := by
      rw [hs]
      apply List.chain'_append.mpr
      refine ⟨hchain, List.chain'_singleton _, ?_⟩
      intro x hx y hy
      rw [hlast] at hx
      simp only [Option.mem_def, Option.some_inj] at hx
      simp only [List.head?_cons, Option.mem_def, Option.some_inj] at hy
      subst hx
      subst hy
      refine ⟨?_, hfacts.1, hfacts.2.1⟩
      simp only
      omega
    have hhead : st'.saved.head? = st.saved.head? := by
      cases hnil : st.saved with
      | nil => rw [hnil] at hlast; cases hlast
      | cons a l => rw [hs, hnil]; rfl
    obtain ⟨ih1, ih2, ih3, ih4⟩ := ih st' hsum' hpend' hlast' hall' hchain'
    exact ⟨ih1, ih2, ih3.trans hhead, ih4⟩

/-- C10: every snapshot the batch run persists satisfies
`done + pending + errors.length = n`; the first snapshot is
`{done 0, pending n, errors []}`; there are `n + 1` snapshots (one per
file after the initial one); and consecutive snapshots decrease
`pending` by exactly one while `done` and the error count never
decrease. -/
theorem C10_batch_progress_invariants (env : Env) (token : String)
    (files : List String) (transformations : List (String × String)) :
    (processFiles env token files transformations).saved.head? =
      some ⟨0, files.length, []⟩ ∧
    (processFiles env token files transformations).saved.length =
      files.length + 1 ∧
    (∀ p ∈ (processFiles env token files transformations).saved,
      p.done + p.pending + p.errors.length = files.length) ∧
    List.Chain' batchRel
      (processFiles env token files transformations).saved := by
  have hPF : processFiles env token files transformations =
      files.foldl (processFilesStep env token transformations)
        { done := 0, pending := files.length, errors := [],
          saved := [⟨0, files.length, []⟩], attempted := [],
          store := saveProgressStore (fun _ => none) token
            ⟨0, files.length, []⟩ } := rfl
  obtain ⟨h1, h2, h3, _h4⟩ :=
    processFiles_saved_invariant env token transformations files.length files
      { done := 0, pending := files.length, errors := [],
        saved := [⟨0, files.length, []⟩], attempted := [],
        store := saveProgressStore (fun _ => none) token
          ⟨0, files.length, []⟩ }
      (by simp) rfl rfl (by intro p hmem; simp at hmem; simp [hmem])
      (List.chain'_singleton _)
  obtain ⟨_, _, hp, _, hs, _⟩ :=
    processFiles_foldl_spec env token transformations files
      { done := 0, pending := files.length, errors := [],
        saved := [⟨0, files.length, []⟩], attempted := [],
        store := saveProgressStore (fun _ => none) token
          ⟨0, files.length, []⟩ }
      (getProgress_save _ _ _)
  rw [← hPF] at h1 h2 h3 hs
  refine ⟨?_, ?_, h1, h2⟩
  · rw [h3]; rfl
  · rw [hs]; simp only [List.length_singleton]; omega

end PixelsServer
